import Mathlib

/-!
Verification of the kodo container-utilities package (`kodo/core.py`,
`kodo/utils.py`) against its natural-language specification.

The Python source is shallowly embedded: each relevant function is
translated into an executable Lean definition; external engine calls
(Docker / Kubernetes API) are represented by explicit response values or
small engine-state models, so that the adapter logic — which is what the
claims are about — is translated verbatim.
-/

namespace Kodo

/-! ## Constants (core.py lines 28-30) -/

def DEFAULT_NAMESPACE : String := "default"

def DEFAULT_DOCKER_PATH : String :=
  "/root/.venv/bin:/root/.local/bin:/root/.cargo/bin:/usr/local/sbin:/usr/local/bin:/usr/sbin:/usr/bin:/sbin:/bin"

def DEFAULT_TIMEOUT : Nat := 300

/-! ## ANSI / carriage-return stripping

`re.sub(r"\x1b\[[0-9;]*m|\r", "", output)` (core.py lines 187 and 421).
The regex removes, scanning left to right: an ESC `[` followed by a
(maximal, since `m` is not in the class) run of digits/semicolons and a
final `m`; or a single carriage return.  -/

def isAnsiParam (c : Char) : Bool := c = ';' || c.isDigit

/-- Given the characters after an ESC, try to match `[[0-9;]*m` and
return the remainder after the match. -/
def ansiTail (cs : List Char) : Option (List Char) :=
  match cs with
  | '[' :: rest =>
    match rest.dropWhile isAnsiParam with
    | 'm' :: rest2 => some rest2
    | _ => none
  | _ => none

theorem dropWhile_length_le (p : Char → Bool) (l : List Char) :
    (l.dropWhile p).length ≤ l.length := by
  induction l with
  | nil => simp
  | cons c tl ih =>
    rw [List.dropWhile_cons]
    split
    · exact Nat.le_trans ih (by simp)
    · simp

theorem ansiTail_length {cs rest : List Char} (h : ansiTail cs = some rest) :
    rest.length < cs.length := by
  unfold ansiTail at h
  split at h
  · rename_i rest0
    split at h
    · rename_i rest2 heq
      injection h with h
      subst h
      have hle := dropWhile_length_le isAnsiParam rest0
      rw [heq] at hle
      simp at hle ⊢
      omega
    · cases h
  · cases h

/-- Remove every ANSI color sequence `ESC[...m` and every `\r`, as the
regex substitution does. -/
def stripAnsiCR : List Char → List Char
  | [] => []
  | c :: rest =>
    if c = '\r' then stripAnsiCR rest
    else if c = '\x1b' then
      match hm : ansiTail rest with
      | some rest2 => stripAnsiCR rest2
      | none => c :: stripAnsiCR rest
    else c :: stripAnsiCR rest
termination_by l => l.length
decreasing_by
  all_goals first
    | exact Nat.lt_trans (ansiTail_length hm) (by simp)
    | simp

def stripAnsiCRString (s : String) : String := String.mk (stripAnsiCR s.data)

/-! ## Command execution (DockerManager.execute_command, core.py 155-193,
and KubernetesManager.execute_command, core.py 372-427)

The exec call against the engine is wrapped in a single-worker bounded
wait.  Its observable outcome is one of: the exec resolved with an output
and exit code, the bounded wait itself timed out
(`concurrent.futures.TimeoutError`), or some other exception was raised.
The functions below translate what each manager then returns. -/

def timeoutMessage (timeout : Nat) : String :=
  "Command timed out (>" ++ toString timeout ++ "s)"

/-- Outcome of the bounded-wait exec invocation on the Docker backend. -/
inductive ExecOutcome where
  | resolved (output : String) (exitCode : Int)
  | waitTimedOut
  | raised (desc : String)
deriving DecidableEq

/-- `DockerManager.execute_command` result construction (core.py 177-193). -/
def dockerExecuteCommand (timeout : Nat) : ExecOutcome → String × String
  | .resolved output exitCode =>
    if exitCode = 124 then (timeoutMessage timeout, "-1")
    else if exitCode ≠ 0 then (output, "Error: Exit code " ++ toString exitCode)
    else (stripAnsiCRString output, toString exitCode)
  | .waitTimedOut => (timeoutMessage timeout, "-1")
  | .raised desc => ("Error: " ++ desc, "-1")

/-- Outcome of the bounded-wait exec invocation on the Kubernetes
backend; the stream may resolve without any exit code (`returncode` is
`None`). -/
inductive K8sExecOutcome where
  | resolved (output : String) (exitCode : Option Int)
  | waitTimedOut
  | raised (desc : String)
deriving DecidableEq

/-- `KubernetesManager.execute_command` result construction
(core.py 407-427). -/
def kubernetesExecuteCommand (timeout : Nat) : K8sExecOutcome → String × String
  | .resolved output exitCode =>
    match exitCode with
    | none => ("Exit code not found", "-1")
    | some code =>
      if code = 124 then (timeoutMessage timeout, "-1")
      else if code ≠ 0 then (output, "Error: Exit code " ++ toString code)
      else (stripAnsiCRString output, toString code)
  | .waitTimedOut => (timeoutMessage timeout, "-1")
  | .raised desc => ("Error: " ++ desc, "-1")

/-! ## Readiness wait (KubernetesManager._wait_for_pod_running, core.py 345-370)

The watch stream is a finite sequence of events, each carrying the pod
phase and the elapsed wall-clock seconds (`time.time() - start_time`) at
the moment the loop body processes it; the stream is opened with
`timeout_seconds=timeout`, so it terminates on its own at the deadline.
The function returns how the Python body exits (normal return, raised
timeout error, or raised terminal-phase error), paired with whether
`w.stop()` was executed.  When the stream is exhausted without a break
the `for` loop simply ends and the function returns normally, without
stopping the watch. -/

inductive WaitOutcome where
  | normalReturn
  | timeoutRaised
  | terminalRaised (phase : String)
deriving DecidableEq

def waitForPodRunning (timeout : Nat) : List (Nat × String) → WaitOutcome × Bool
  | [] => (.normalReturn, false)
  | (elapsed, phase) :: rest =>
    if elapsed > timeout then (.timeoutRaised, true)
    else if phase = "Running" then (.normalReturn, true)
    else if phase = "Failed" ∨ phase = "Succeeded" ∨ phase = "Unknown" then
      (.terminalRaised phase, true)
    else waitForPodRunning timeout rest

/-! ## Pod creation with retry (KubernetesManager.start_pod, core.py 296-343)

`create_namespaced_pod` is an external call; each attempt's response is
either success or an `ApiException` with a status code.  The loop runs
`attempt` over `range(1, max_retries + 1)`, sleeping `backoff` and
doubling it (capped at 60) before a retry, which happens only when the
status is in {409, 429, 500, 503} and `attempt < max_retries`; otherwise
the exception is re-raised.  The `for`-`else` branch raises a
"retry limit" RuntimeError when the loop finishes without `break`. -/

inductive ApiResponse where
  | success
  | apiError (status : Nat)
deriving DecidableEq

def retriableStatus (status : Nat) : Bool :=
  status == 409 || status == 429 || status == 500 || status == 503

inductive CreateResult where
  | ok (attempt : Nat) (delays : List Nat)
  | raised (status : Nat) (attempt : Nat) (delays : List Nat)
  | exhausted (delays : List Nat)
deriving DecidableEq

/-- Record one executed `time.sleep(backoff)` in front of a loop result. -/
def consDelay (d : Nat) : CreateResult → CreateResult
  | .ok a ds => .ok a (d :: ds)
  | .raised s a ds => .raised s a (d :: ds)
  | .exhausted ds => .exhausted (d :: ds)

/-- The creation loop, from the current attempt with `remaining` loop
iterations left (entry point: attempt 1 with `max_retries` iterations);
`attempt < max_retries` in the source is `0 < remaining - 1` here. -/
def createLoop (resp : Nat → ApiResponse) : Nat → Nat → Nat → CreateResult
  | 0, _, _ => .exhausted []
  | remaining + 1, attempt, backoff =>
    match resp attempt with
    | .success => .ok attempt []
    | .apiError status =>
      if retriableStatus status && decide (0 < remaining) then
        consDelay backoff (createLoop resp remaining (attempt + 1) (min (backoff * 2) 60))
      else .raised status attempt []

/-- `start_pod`'s creation loop: `backoff = 5`, attempts from 1 to
`max_retries`. -/
def podCreateWithRetry (resp : Nat → ApiResponse) (maxRetries : Nat) : CreateResult :=
  createLoop resp maxRetries 1 5

def CreateResult.delays : CreateResult → List Nat
  | .ok _ ds => ds
  | .raised _ _ ds => ds
  | .exhausted ds => ds

/-- Index of the last creation attempt actually issued (0 when the loop
body never ran). -/
def CreateResult.lastAttempt : CreateResult → Nat
  | .ok a _ => a
  | .raised _ a _ => a
  | .exhausted _ => 0

def CreateResult.isExhausted : CreateResult → Bool
  | .exhausted _ => true
  | _ => false

/-- The backoff discipline of the loop: each recorded delay equals the
backoff current when it was slept, and the backoff then becomes
`min (backoff * 2) 60`. -/
def goodDelays : Nat → List Nat → Prop
  | _, [] => True
  | b, d :: ds => d = b ∧ goodDelays (min (b * 2) 60) ds

/-- Result of the initial `read_namespaced_pod` existence check. -/
inductive ReadResult where
  | found
  | notFound
  | readError (status : Nat)
deriving DecidableEq

inductive StartOutcome where
  | returned
  | errorRaised
deriving DecidableEq

/-- `start_pod` at the level of its external interactions: the existence
read, the creation-loop responses, and whether the readiness wait
returned without raising.  The second component records whether the name
was registered in `self.pods`. -/
def startPodModel (read : ReadResult) (resp : Nat → ApiResponse) (maxRetries : Nat)
    (waitOk : Bool) : StartOutcome × Bool :=
  match read with
  | .found => (.returned, true)
  | .readError _ => (.errorRaised, false)
  | .notFound =>
    match podCreateWithRetry resp maxRetries with
    | .ok _ _ => if waitOk then (.returned, true) else (.errorRaised, false)
    | .raised _ _ _ => (.errorRaised, false)
    | .exhausted _ => (.errorRaised, false)

/-! ## Association-list primitives shared by the environment models -/

def lookupKV : List (String × String) → String → Option String
  | [], _ => none
  | (k, v) :: rest, key => if key = k then some v else lookupKV rest key

/-! ## Proxy isolation scope (ProxyManager, core.py 33-76)

The process environment is a map from variable name to optional value.
`__enter__` (with `disable_proxy=True`) saves each present proxy variable
and deletes it; `__exit__` runs even when the wrapped operation raises
and writes every saved pair back, touching nothing else.  The wrapped
operation is an arbitrary transformation of the environment paired with
a flag recording whether it raised. -/

def Env : Type := String → Option String

def proxyVarNames : List String :=
  ["http_proxy", "https_proxy", "HTTP_PROXY", "HTTPS_PROXY",
   "ftp_proxy", "FTP_PROXY", "no_proxy", "NO_PROXY"]

/-- `original_proxy_settings` after `_disable_proxy`, generalized over
the variable list. -/
def captureVars (env : Env) (l : List String) : List (String × String) :=
  l.filterMap (fun v => (env v).map (fun x => (v, x)))

def captureProxySettings (env : Env) : List (String × String) :=
  captureVars env proxyVarNames

/-- The environment after `_disable_proxy` deleted every present proxy
variable. -/
def clearProxyVars (env : Env) : Env :=
  fun v => if v ∈ proxyVarNames then none else env v

/-- `_restore_proxy`: write back each saved pair (keys are distinct, so
sequential writes are pointwise override). -/
def restoreProxySettings (saved : List (String × String)) (env : Env) : Env :=
  fun v =>
    match lookupKV saved v with
    | some x => some x
    | none => env v

/-- `with ProxyManager(disable_proxy=True): op` — capture, clear, run
the operation, restore; `__exit__` runs whether or not `op` raised. -/
def proxyScopeRun (op : Env → Env × Bool) (env : Env) : Env × Bool :=
  let saved := captureProxySettings env
  let afterOp := op (clearProxyVars env)
  (restoreProxySettings saved afterOp.1, afterOp.2)

/-! ## Docker engine model (DockerManager, core.py 93-153)

The local engine holds a list of containers, each with a unique name and
an engine-reported status.  `start_container` lists containers filtered
by name (`all=True`), reuses the first match (starting it when its
status is not "running"), and otherwise creates a new detached container
(status "running"); either way the handle is stored in
`self.containers`.  `stop_container` acts only when the name is a key of
`self.containers`: it stops and removes that container and deletes the
key; otherwise the body is a no-op. -/

structure DockerContainer where
  name : String
  status : String
deriving DecidableEq

def listByName (engine : List DockerContainer) (name : String) : List DockerContainer :=
  engine.filter (fun c => c.name == name)

/-- `container.start()` on the handle `containers[0]`: the first
container with the given name becomes "running". -/
def startFirst : List DockerContainer → String → List DockerContainer
  | [], _ => []
  | c :: rest, name =>
    if c.name == name then ⟨c.name, "running"⟩ :: rest
    else c :: startFirst rest name

/-- `self.containers[name] = container` on the set of managed names. -/
def addManaged (managed : List String) (name : String) : List String :=
  if name ∈ managed then managed else managed ++ [name]

structure DockerStartResult where
  engine : List DockerContainer
  managed : List String
  creations : Nat
deriving DecidableEq

/-- `DockerManager.start_container` (core.py 113-137): lookup by name,
reuse (starting when needed) or create; `creations` counts
`client.containers.run` calls. -/
def dockerStartContainer (engine : List DockerContainer) (managed : List String)
    (name : String) : DockerStartResult :=
  match listByName engine name with
  | c :: _ =>
    ⟨if c.status = "running" then engine else startFirst engine name,
     addManaged managed name, 0⟩
  | [] =>
    ⟨engine ++ [⟨name, "running"⟩], addManaged managed name, 1⟩

inductive DockerEngineCall where
  | stopCall (name : String)
  | removeCall (name : String)
deriving DecidableEq

/-- `DockerManager.stop_container` (core.py 144-153): only a name present
in `self.containers` triggers `stop()`, `remove()` and deregistration;
the result records the engine state, the managed set, and the engine
calls issued. -/
def dockerStopContainer (engine : List DockerContainer) (managed : List String)
    (name : String) : List DockerContainer × List String × List DockerEngineCall :=
  if name ∈ managed then
    (engine.filter (fun c => !(c.name == name)),
     managed.filter (fun m => !(m == name)),
     [DockerEngineCall.stopCall name, DockerEngineCall.removeCall name])
  else (engine, managed, [])

/-! ## Sequential cluster engine model (KubernetesManager.start_pod,
core.py 308-343, against a conflict-free engine)

For the idempotence claim the external API is instantiated consistently
with a single sequential caller: `read_namespaced_pod` finds the pod iff
its name is in the cluster, and `create_namespaced_pod` — called only
after the read returned 404 — succeeds on the first attempt and adds the
name.  `waitOk` is the outcome of the readiness wait; registration in
`self.pods` happens after the existing-pod read, or after creation once
the wait returns. -/

structure K8sStartResult where
  cluster : List String
  managed : List String
  creations : Nat
  returnedOk : Bool
deriving DecidableEq

def k8sStartSeq (cluster managed : List String) (name : String) (waitOk : Bool) :
    K8sStartResult :=
  if name ∈ cluster then ⟨cluster, addManaged managed name, 0, true⟩
  else if waitOk then ⟨cluster ++ [name], addManaged managed name, 1, true⟩
  else ⟨cluster ++ [name], managed, 1, false⟩

/-! ## Environment merging (core.py 120-135 and 249-253)

Both creation paths build `env = {"PATH": DEFAULT_DOCKER_PATH}` and then
`env.update(environment)`.  Python dicts are modeled as association
lists with insertion order; `update` overwrites in place or appends. -/

/-- `d[k] = v` on a Python dict. -/
def dictSet (d : List (String × String)) (k v : String) : List (String × String) :=
  if (lookupKV d k).isSome then
    d.map (fun p => if p.1 = k then (k, v) else p)
  else d ++ [(k, v)]

/-- `d.update(u)`: assign each pair of `u` in order. -/
def dictUpdate (d u : List (String × String)) : List (String × String) :=
  u.foldl (fun acc p => dictSet acc p.1 p.2) d

/-- The environment handed to `client.containers.run`
(DockerManager.start_container, core.py 122-124). -/
def mergedEnv (environment : List (String × String)) : List (String × String) :=
  dictUpdate [("PATH", DEFAULT_DOCKER_PATH)] environment

/-- The `env` name/value list of the pod specification
(KubernetesManager.create_pod_spec, core.py 249-253); values are already
strings, so `str(v)` is the identity. -/
def podSpecEnv (environment : List (String × String)) : List (String × String) :=
  dictUpdate [("PATH", DEFAULT_DOCKER_PATH)] environment

/-! ## SHA-256 (hashlib.sha256, FIPS 180-4)

`ContainerUtils.get_container_name` hashes `str(datetime.now()) +
str(os.getpid())` with SHA-256 and keeps the first 10 hex characters.
The hash is embedded executably: 32-bit words are naturals reduced
modulo 2^32. -/

def M32 : Nat := 4294967296

def rotr32 (n x : Nat) : Nat := ((x >>> n) ||| (x <<< (32 - n))) % M32

def smallSigma0 (x : Nat) : Nat := rotr32 7 x ^^^ rotr32 18 x ^^^ (x >>> 3)

def smallSigma1 (x : Nat) : Nat := rotr32 17 x ^^^ rotr32 19 x ^^^ (x >>> 10)

def bigSigma0 (x : Nat) : Nat := rotr32 2 x ^^^ rotr32 13 x ^^^ rotr32 22 x

def bigSigma1 (x : Nat) : Nat := rotr32 6 x ^^^ rotr32 11 x ^^^ rotr32 25 x

def chFn (x y z : Nat) : Nat := (x &&& y) ^^^ ((x ^^^ 0xffffffff) &&& z)

def majFn (x y z : Nat) : Nat := (x &&& y) ^^^ (x &&& z) ^^^ (y &&& z)

/-- The 64 round constants of SHA-256 (fractional parts of the cube
roots of the first 64 primes), written in decimal. -/
def K256 : List Nat :=
  [1116352408, 1899447441, 3049323471, 3921009573, 961987163,
   1508970993, 2453635748, 2870763221, 3624381080, 310598401,
   607225278, 1426881987, 1925078388, 2162078206, 2614888103,
   3248222580, 3835390401, 4022224774, 264347078, 604807628,
   770255983, 1249150122, 1555081692, 1996064986, 2554220882,
   2821834349, 2952996808, 3210313671, 3336571891, 3584528711,
   113926993, 338241895, 666307205, 773529912, 1294757372,
   1396182291, 1695183700, 1986661051, 2177026350, 2456956037,
   2730485921, 2820302411, 3259730800, 3345764771, 3516065817,
   3600352804, 4094571909, 275423344, 430227734, 506948616,
   659060556, 883997877, 958139571, 1322822218, 1537002063,
   1747873779, 1955562222, 2024104815, 2227730452, 2361852424,
   2428436474, 2756734187, 3204031479, 3329325298]

structure Hash8 where
  a : Nat
  b : Nat
  c : Nat
  d : Nat
  e : Nat
  f : Nat
  g : Nat
  h : Nat
deriving DecidableEq

/-- The initial SHA-256 hash state (fractional parts of the square roots
of the first 8 primes), written in decimal. -/
def initialHash : Hash8 :=
  ⟨1779033703, 3144134277, 1013904242, 2773480762,
   1359893119, 2600822924, 528734635, 1541459225⟩

/-- `count` big-endian bytes of `n`. -/
def bytesBE : Nat → Nat → List Nat
  | 0, _ => []
  | count + 1, n => bytesBE count (n / 256) ++ [n % 256]

/-- Merkle-Damgard padding: append `0x80`, zero bytes up to 56 mod 64,
then the 8-byte big-endian bit length. -/
def sha256Pad (msg : List Nat) : List Nat :=
  msg ++ [0x80] ++ List.replicate ((119 - msg.length % 64) % 64) 0
      ++ bytesBE 8 (msg.length * 8)

def chunk64 (l : List Nat) : List (List Nat) :=
  if l = [] then [] else l.take 64 :: chunk64 (l.drop 64)
termination_by l.length
decreasing_by
  rename_i hne
  have : 0 < l.length := List.length_pos.mpr hne
  simp
  omega

/-- Big-endian 4-byte groups to 32-bit words. -/
def wordsOf : List Nat → List Nat
  | b0 :: b1 :: b2 :: b3 :: rest =>
    (((b0 * 256 + b1) * 256 + b2) * 256 + b3) :: wordsOf rest
  | _ => []

/-- One message-schedule extension step:
`w[i] = sigma1(w[i-2]) + w[i-7] + sigma0(w[i-15]) + w[i-16]`. -/
def extendStep (w : List Nat) : List Nat :=
  w ++ [(smallSigma1 (w.getD (w.length - 2) 0) + w.getD (w.length - 7) 0 +
         smallSigma0 (w.getD (w.length - 15) 0) + w.getD (w.length - 16) 0) % M32]

def buildSchedule : Nat → List Nat → List Nat
  | 0, w => w
  | steps + 1, w => buildSchedule steps (extendStep w)

def schedule (block : List Nat) : List Nat := buildSchedule 48 (wordsOf block)

def roundFn (st : Hash8) (kw : Nat × Nat) : Hash8 :=
  let t1 := (st.h + bigSigma1 st.e + chFn st.e st.f st.g + kw.1 + kw.2) % M32
  let t2 := (bigSigma0 st.a + majFn st.a st.b st.c) % M32
  ⟨(t1 + t2) % M32, st.a, st.b, st.c, (st.d + t1) % M32, st.e, st.f, st.g⟩

def compressBlock (hv : Hash8) (block : List Nat) : Hash8 :=
  let fin := (K256.zip (schedule block)).foldl roundFn hv
  ⟨(hv.a + fin.a) % M32, (hv.b + fin.b) % M32, (hv.c + fin.c) % M32,
   (hv.d + fin.d) % M32, (hv.e + fin.e) % M32, (hv.f + fin.f) % M32,
   (hv.g + fin.g) % M32, (hv.h + fin.h) % M32⟩

def sha256Hash (msg : List Nat) : Hash8 :=
  (chunk64 (sha256Pad msg)).foldl compressBlock initialHash

def hexDigit (n : Nat) : Char :=
  if n < 10 then Char.ofNat (48 + n) else Char.ofNat (87 + n)

/-- Eight lowercase hex characters of a 32-bit word. -/
def wordHex (w : Nat) : List Char :=
  [hexDigit (w / 268435456 % 16), hexDigit (w / 16777216 % 16),
   hexDigit (w / 1048576 % 16), hexDigit (w / 65536 % 16),
   hexDigit (w / 4096 % 16), hexDigit (w / 256 % 16),
   hexDigit (w / 16 % 16), hexDigit (w % 16)]

def hash8Hex (hv : Hash8) : List Char :=
  wordHex hv.a ++ wordHex hv.b ++ wordHex hv.c ++ wordHex hv.d ++
  wordHex hv.e ++ wordHex hv.f ++ wordHex hv.g ++ wordHex hv.h

def stringToBytes (s : String) : List Nat := s.toUTF8.toList.map (fun b => b.toNat)

/-- `hashlib.sha256(s.encode()).hexdigest()`. -/
def sha256Hex (s : String) : List Char := hash8Hex (sha256Hash (stringToBytes s))

/-! ## Identity generator (ContainerUtils.get_container_name, core.py 82-90)

`process_id` and `current_time` are the strings the two library calls
return; the function itself is deterministic in them. -/

def sanitizeImage (imageName : String) : String :=
  (imageName.replace "/" "-").replace ":" "-"

/-- `hash_object.hexdigest()[:10]` for `unique_string`. -/
def hashSuffix (uniqueString : String) : List Char :=
  (sha256Hex uniqueString).take 10

def getContainerName (imageName processId currentTime : String) : String :=
  sanitizeImage imageName ++ "-" ++ String.mk (hashSuffix (currentTime ++ processId))

/-! ## Pod deletion (KubernetesManager.delete_pod, core.py 468-487) -/

inductive DeleteApiResponse where
  | success
  | apiError (status : Nat)
deriving DecidableEq

/-- `delete_pod`: on success, `del self.pods[pod_name]` when present; a
404 response is swallowed (`pass`, no deregistration); any other status
propagates as an error. -/
def deletePodModel (resp : DeleteApiResponse) (pods : List String) (name : String) :
    Except Nat (List String) :=
  match resp with
  | .success => .ok (pods.filter (fun p => !(p == name)))
  | .apiError status => if status = 404 then .ok pods else .error status

/-! ## Concrete inputs used by witnesses -/

/-- An environment with no variables set. -/
def envAllAbsent : Env := fun _ => none

/-- A wrapped operation that itself sets `http_proxy` (and does not raise). -/
def opSetsHttpProxy : Env → Env × Bool :=
  fun e => ((fun v => if v = "http_proxy" then some "injected" else e v), false)

/-- An environment in which exactly `http_proxy` is set. -/
def envWithProxy : Env :=
  fun v => if v = "http_proxy" then some "http://proxy.corp:3128" else none

/-- A wrapped operation that leaves the environment alone and raises. -/
def opRaises : Env → Env × Bool := fun e => (e, true)

/-- Creation responses: HTTP 409 on attempts 1 and 2, success afterwards. -/
def respConflictTwice : Nat → ApiResponse :=
  fun attempt => if attempt ≤ 2 then ApiResponse.apiError 409 else ApiResponse.success

/-- Creation responses: success immediately. -/
def respAllSuccess : Nat → ApiResponse := fun _ => ApiResponse.success

/-!
# Theorems
-/

/-! ## C1: CommandResult wire contract -/

theorem toString_int_zero : toString (0 : Int) = "0" := rfl

/-- Claim C1: on both backends the CommandResult pair follows the wire
contract exactly: a resolved exit code 0 yields the ANSI/CR-stripped
output paired with "0"; a resolved exit code 124, or expiry of the
bounded wait itself, yields ("Command timed out (>Ns)", "-1") with N the
timeout; a resolved nonzero exit code other than 124 yields the raw
output paired with "Error: Exit code N"; an unexpected invocation error
yields ("Error: <description>", "-1"). -/
theorem command_result_wire_contract (timeout : Nat) (output desc : String) (code : Int) :
    dockerExecuteCommand timeout (ExecOutcome.resolved output 0) =
      (stripAnsiCRString output, "0") ∧
    dockerExecuteCommand timeout (ExecOutcome.resolved output 124) =
      (timeoutMessage timeout, "-1") ∧
    dockerExecuteCommand timeout ExecOutcome.waitTimedOut = (timeoutMessage timeout, "-1") ∧
    (code ≠ 0 → code ≠ 124 →
      dockerExecuteCommand timeout (ExecOutcome.resolved output code) =
        (output, "Error: Exit code " ++ toString code)) ∧
    dockerExecuteCommand timeout (ExecOutcome.raised desc) = ("Error: " ++ desc, "-1") ∧
    kubernetesExecuteCommand timeout (K8sExecOutcome.resolved output (some 0)) =
      (stripAnsiCRString output, "0") ∧
    kubernetesExecuteCommand timeout (K8sExecOutcome.resolved output (some 124)) =
      (timeoutMessage timeout, "-1") ∧
    kubernetesExecuteCommand timeout K8sExecOutcome.waitTimedOut =
      (timeoutMessage timeout, "-1") ∧
    (code ≠ 0 → code ≠ 124 →
      kubernetesExecuteCommand timeout (K8sExecOutcome.resolved output (some code)) =
        (output, "Error: Exit code " ++ toString code)) ∧
    kubernetesExecuteCommand timeout (K8sExecOutcome.raised desc) =
      ("Error: " ++ desc, "-1") := by
  refine ⟨?_, rfl, rfl, ?_, rfl, ?_, rfl, rfl, ?_, rfl⟩
  · simp [dockerExecuteCommand, toString_int_zero]
  · intro h0 h124
    simp [dockerExecuteCommand, h0, h124]
  · simp [kubernetesExecuteCommand, toString_int_zero]
  · intro h0 h124
    simp [kubernetesExecuteCommand, h0, h124]

/-- Witness for C1 at concrete inputs: exit code 7 with output "boom" on
both backends. -/
theorem command_result_wire_contract_witness :
    dockerExecuteCommand 300 (ExecOutcome.resolved "boom" 7) =
      ("boom", "Error: Exit code 7") ∧
    kubernetesExecuteCommand 300 (K8sExecOutcome.resolved "boom" (some 7)) =
      ("boom", "Error: Exit code 7") :=
  ⟨((command_result_wire_contract 300 "boom" "x" 7).2.2.2.1 (by decide) (by decide)).trans
      (by rfl),
   ((command_result_wire_contract 300 "boom" "x" 7).2.2.2.2.2.2.2.2.1 (by decide)
      (by decide)).trans (by rfl)⟩

/-! ## C2: readiness wait (code bug)

The claim also requires: if no Running or terminal event arrives before
the deadline, the wait raises a timeout error, and the watch is stopped
on every exit path.  The source opens the watch with
`timeout_seconds=timeout`, so when no such event arrives the stream is
simply exhausted at the deadline, the `for` loop ends without `break`,
and `_wait_for_pod_running` returns normally — no timeout error is
raised and `w.stop()` is never executed on that path (the in-loop
elapsed-time check fires only if some event is delivered after the
deadline).  The first conjunct evaluates the failing input; the other
two record that the success and terminal paths do behave as claimed. -/

/-- Claim C2 (code bug, failing input): a stream holding a single Pending
event and then ending before the 100s deadline makes the wait return
normally with the watch never stopped, where the claim requires a raised
timeout error. -/
theorem wait_for_pod_running_stream_end_bug :
    waitForPodRunning 100 [(0, "Pending")] = (WaitOutcome.normalReturn, false) ∧
    waitForPodRunning 100 [(0, "Pending"), (3, "Pending"), (7, "Running")] =
      (WaitOutcome.normalReturn, true) ∧
    waitForPodRunning 100 [(0, "Pending"), (3, "Failed")] =
      (WaitOutcome.terminalRaised "Failed", true) ∧
    waitForPodRunning 100 [(0, "Pending"), (150, "Pending")] =
      (WaitOutcome.timeoutRaised, true) := by
  refine ⟨?_, ?_, ?_, ?_⟩ <;> decide

/-! ## C8: pod deletion error handling -/

/-- Claim C8: `delete_pod` treats a 404 as already-satisfied and returns
without error; any other API error propagates; on success the name is
deregistered from the managed set. -/
theorem delete_pod_contract (pods : List String) (name : String) (status : Nat) :
    deletePodModel DeleteApiResponse.success pods name =
      Except.ok (pods.filter (fun p => !(p == name))) ∧
    name ∉ pods.filter (fun p => !(p == name)) ∧
    deletePodModel (DeleteApiResponse.apiError 404) pods name = Except.ok pods ∧
    (status ≠ 404 →
      deletePodModel (DeleteApiResponse.apiError status) pods name = Except.error status) := by
  refine ⟨rfl, ?_, rfl, ?_⟩
  · intro hmem
    have h := (List.mem_filter.mp hmem).2
    simp at h
  · intro hs
    simp [deletePodModel, hs]

/-- Witness for C8: status 500 propagates. -/
theorem delete_pod_contract_witness :
    deletePodModel (DeleteApiResponse.apiError 500) ["pod-a"] "pod-a" = Except.error 500 :=
  (delete_pod_contract ["pod-a"] "pod-a" 500).2.2.2 (by decide)

/-! ## C10: stop_container on an unmanaged name -/

/-- Claim C10: for a name not in this manager's managed set,
`stop_container` returns without error and issues no stop or remove call,
leaving engine state and managed set unchanged. -/
theorem stop_container_unmanaged_noop (engine : List DockerContainer)
    (managed : List String) (name : String) (h : name ∉ managed) :
    dockerStopContainer engine managed name = (engine, managed, []) := by
  simp [dockerStopContainer, h]

/-- Witness for C10: a container known to the engine but not managed by
this instance is untouched. -/
theorem stop_container_unmanaged_noop_witness :
    dockerStopContainer [⟨"web", "running"⟩] ["db"] "web" =
      ([⟨"web", "running"⟩], ["db"], []) :=
  stop_container_unmanaged_noop _ _ _ (by decide)

/-! ## C4: proxy isolation scope -/

theorem lookupKV_captureVars_not_mem (env : Env) {l : List String} {v : String}
    (hv : v ∉ l) : lookupKV (captureVars env l) v = none := by
  induction l with
  | nil => rfl
  | cons u tl ih =>
    have hvu : v ≠ u := fun h => hv (h ▸ List.mem_cons_self u tl)
    have hvtl : v ∉ tl := fun h => hv (List.mem_cons_of_mem u h)
    cases henv : env u with
    | none =>
      simpa [captureVars, List.filterMap_cons, henv] using ih hvtl
    | some x =>
      simpa [captureVars, List.filterMap_cons, henv, lookupKV, hvu] using ih hvtl

theorem lookupKV_captureVars_mem (env : Env) {l : List String} (hnd : l.Nodup)
    {v : String} (hv : v ∈ l) : lookupKV (captureVars env l) v = env v := by
  induction l with
  | nil => cases hv
  | cons u tl ih =>
    obtain ⟨hu, htl⟩ := List.nodup_cons.mp hnd
    rcases List.mem_cons.mp hv with h | h
    · subst h
      cases henv : env v with
      | none =>
        simpa [captureVars, List.filterMap_cons, henv] using
          lookupKV_captureVars_not_mem env hu
      | some x =>
        simp [captureVars, List.filterMap_cons, henv, lookupKV]
    · have hvu : v ≠ u := fun hque => hu (hque ▸ h)
      cases henv : env u with
      | none =>
        simpa [captureVars, List.filterMap_cons, henv] using ih htl h
      | some x =>
        simpa [captureVars, List.filterMap_cons, henv, lookupKV, hvu] using ih htl h

theorem proxyVarNames_nodup : proxyVarNames.Nodup := by decide

/-- Claim C4 counterexample: with every proxy variable initially absent
and a wrapped operation that sets `http_proxy`, the variable exists
after enter+exit (`_restore_proxy` only writes captured values back, it
never deletes), so the environment is not bit-identical to its state
before enter for every wrapped operation. -/
theorem proxy_scope_mutating_op_not_restored :
    (proxyScopeRun opSetsHttpProxy envAllAbsent).1 "http_proxy" = some "injected" ∧
    envAllAbsent "http_proxy" = none := by
  constructor
  · rfl
  · rfl

/-- Claim C4 (amended): for every initial environment and every wrapped
operation — including one that raises — that does not itself set any of
the proxy variables while the scope is open, each fixed proxy variable
is bit-identical after enter+exit to its state before enter (a present
variable regains its exact value, an absent one stays absent), and the
scope itself changes no other variable: outside the proxy set the final
environment is exactly what the wrapped operation produced. -/
theorem proxy_scope_restores_env (env : Env) (op : Env → Env × Bool)
    (hop : ∀ v ∈ proxyVarNames, (op (clearProxyVars env)).1 v = none) :
    (∀ v ∈ proxyVarNames, (proxyScopeRun op env).1 v = env v) ∧
    (∀ v, v ∉ proxyVarNames → (proxyScopeRun op env).1 v = (op (clearProxyVars env)).1 v) := by
  constructor
  · intro v hv
    show restoreProxySettings (captureProxySettings env) (op (clearProxyVars env)).1 v = env v
    unfold restoreProxySettings captureProxySettings
    rw [lookupKV_captureVars_mem env proxyVarNames_nodup hv]
    cases henv : env v with
    | none => simpa using hop v hv
    | some x => rfl
  · intro v hv
    show restoreProxySettings (captureProxySettings env) (op (clearProxyVars env)).1 v =
      (op (clearProxyVars env)).1 v
    unfold restoreProxySettings captureProxySettings
    rw [lookupKV_captureVars_not_mem env hv]

/-- Witness for C4 (amended) at a concrete environment in which
`http_proxy` is set, with an identity operation that raises. -/
theorem proxy_scope_restores_env_witness :
    (proxyScopeRun opRaises envWithProxy).1 "http_proxy" = envWithProxy "http_proxy" ∧
    (proxyScopeRun opRaises envWithProxy).1 "HOME" =
      (opRaises (clearProxyVars envWithProxy)).1 "HOME" :=
  ⟨(proxy_scope_restores_env envWithProxy opRaises (by decide)).1 "http_proxy" (by decide),
   (proxy_scope_restores_env envWithProxy opRaises (by decide)).2 "HOME" (by decide)⟩

/-! ## C3 and C9: creation retry loop -/

theorem delays_consDelay (d : Nat) (r : CreateResult) :
    (consDelay d r).delays = d :: r.delays := by
  cases r <;> rfl

theorem lastAttempt_consDelay (d : Nat) (r : CreateResult) :
    (consDelay d r).lastAttempt = r.lastAttempt := by
  cases r <;> rfl

theorem isExhausted_consDelay (d : Nat) (r : CreateResult) :
    (consDelay d r).isExhausted = r.isExhausted := by
  cases r <;> rfl

theorem createLoop_delays_good (resp : Nat → ApiResponse) :
    ∀ (rem attempt backoff : Nat),
      goodDelays backoff (createLoop resp rem attempt backoff).delays := by
  intro rem
  induction rem with
  | zero =>
    intro attempt backoff
    simp [createLoop, CreateResult.delays, goodDelays]
  | succ r ih =>
    intro attempt backoff
    cases hresp : resp attempt with
    | success =>
      simp [createLoop, hresp, CreateResult.delays, goodDelays]
    | apiError s =>
      by_cases hc : (retriableStatus s && decide (0 < r)) = true
      · have hstep : createLoop resp (r + 1) attempt backoff =
            consDelay backoff (createLoop resp r (attempt + 1) (min (backoff * 2) 60)) := by
          simp [createLoop, hresp, hc]
        rw [hstep, delays_consDelay]
        exact ⟨rfl, ih (attempt + 1) (min (backoff * 2) 60)⟩
      · simp [createLoop, hresp, hc, CreateResult.delays, goodDelays]

theorem goodDelays_chain {b : Nat} {ds : List Nat} (h : goodDelays b ds) :
    List.Chain' (fun x y => y = min (x * 2) 60) ds := by
  induction ds generalizing b with
  | nil => simp
  | cons d tl ih =>
    obtain ⟨hd, htl⟩ := h
    subst hd
    cases tl with
    | nil => simp
    | cons e tl2 =>
      obtain ⟨he, htl2⟩ := htl
      exact List.chain'_cons.mpr ⟨he, ih ⟨he, htl2⟩⟩

theorem goodDelays_le {b : Nat} {ds : List Nat} (hb : b ≤ 60) (h : goodDelays b ds) :
    ∀ d ∈ ds, d ≤ 60 := by
  induction ds generalizing b with
  | nil => simp
  | cons d tl ih =>
    obtain ⟨hd, htl⟩ := h
    subst hd
    intro x hx
    rcases List.mem_cons.mp hx with rfl | hx
    · exact hb
    · exact ih (Nat.min_le_right _ _) htl x hx

theorem goodDelays_nondecreasing {b : Nat} {ds : List Nat} (hb : b ≤ 60)
    (h : goodDelays b ds) : List.Chain' (· ≤ ·) ds := by
  induction ds generalizing b with
  | nil => simp
  | cons d tl ih =>
    obtain ⟨hd, htl⟩ := h
    subst hd
    cases tl with
    | nil => simp
    | cons e tl2 =>
      obtain ⟨he, htl2⟩ := htl
      refine List.chain'_cons.mpr ⟨?_, ih (Nat.min_le_right _ _) ⟨he, htl2⟩⟩
      subst he
      omega

theorem createLoop_lastAttempt_le (resp : Nat → ApiResponse) :
    ∀ (rem attempt backoff : Nat),
      (createLoop resp rem attempt backoff).lastAttempt ≤ attempt + rem - 1 := by
  intro rem
  induction rem with
  | zero =>
    intro attempt backoff
    simp [createLoop, CreateResult.lastAttempt]
  | succ r ih =>
    intro attempt backoff
    cases hresp : resp attempt with
    | success =>
      simp only [createLoop, hresp, CreateResult.lastAttempt]
      omega
    | apiError s =>
      by_cases hc : (retriableStatus s && decide (0 < r)) = true
      · have hstep : createLoop resp (r + 1) attempt backoff =
            consDelay backoff (createLoop resp r (attempt + 1) (min (backoff * 2) 60)) := by
          simp [createLoop, hresp, hc]
        rw [hstep, lastAttempt_consDelay]
        have := ih (attempt + 1) (min (backoff * 2) 60)
        omega
      · simp only [createLoop, hresp, hc, if_false, Bool.false_eq_true,
          CreateResult.lastAttempt]
        omega

theorem createLoop_raised_inv (resp : Nat → ApiResponse) :
    ∀ (rem attempt backoff s a : Nat) (ds : List Nat),
      createLoop resp rem attempt backoff = .raised s a ds →
      resp a = .apiError s ∧
      ∀ i, attempt ≤ i → i < a →
        ∃ s2, resp i = .apiError s2 ∧ retriableStatus s2 = true := by
  intro rem
  induction rem with
  | zero =>
    intro attempt backoff s a ds h
    simp [createLoop] at h
  | succ r ih =>
    intro attempt backoff s a ds h
    cases hresp : resp attempt with
    | success =>
      rw [show createLoop resp (r + 1) attempt backoff = .ok attempt [] by
        simp [createLoop, hresp]] at h
      cases h
    | apiError s2 =>
      by_cases hc : (retriableStatus s2 && decide (0 < r)) = true
      · rw [show createLoop resp (r + 1) attempt backoff =
            consDelay backoff (createLoop resp r (attempt + 1) (min (backoff * 2) 60)) by
          simp [createLoop, hresp, hc]] at h
        cases hrec : createLoop resp r (attempt + 1) (min (backoff * 2) 60) with
        | ok a3 ds3 => rw [hrec] at h; cases h
        | exhausted ds3 => rw [hrec] at h; cases h
        | raised s3 a3 ds3 =>
          rw [hrec] at h
          obtain ⟨hcr, _⟩ : retriableStatus s2 = true ∧ 0 < r := by simpa using hc
          cases h
          obtain ⟨hra, hrall⟩ := ih (attempt + 1) (min (backoff * 2) 60) _ _ _ hrec
          refine ⟨hra, ?_⟩
          intro i hi1 hi2
          rcases Nat.eq_or_lt_of_le hi1 with rfl | hlt
          · exact ⟨s2, hresp, hcr⟩
          · exact hrall i hlt hi2
      · rw [show createLoop resp (r + 1) attempt backoff = .raised s2 attempt [] by
          simp [createLoop, hresp, hc]] at h
        cases h
        refine ⟨hresp, ?_⟩
        intro i hi1 hi2
        omega

theorem createLoop_ok_inv (resp : Nat → ApiResponse) :
    ∀ (rem attempt backoff a : Nat) (ds : List Nat),
      createLoop resp rem attempt backoff = .ok a ds →
      resp a = .success ∧
      ∀ i, attempt ≤ i → i < a →
        ∃ s2, resp i = .apiError s2 ∧ retriableStatus s2 = true := by
  intro rem
  induction rem with
  | zero =>
    intro attempt backoff a ds h
    simp [createLoop] at h
  | succ r ih =>
    intro attempt backoff a ds h
    cases hresp : resp attempt with
    | success =>
      rw [show createLoop resp (r + 1) attempt backoff = .ok attempt [] by
        simp [createLoop, hresp]] at h
      cases h
      refine ⟨hresp, ?_⟩
      intro i hi1 hi2
      omega
    | apiError s2 =>
      by_cases hc : (retriableStatus s2 && decide (0 < r)) = true
      · rw [show createLoop resp (r + 1) attempt backoff =
            consDelay backoff (createLoop resp r (attempt + 1) (min (backoff * 2) 60)) by
          simp [createLoop, hresp, hc]] at h
        cases hrec : createLoop resp r (attempt + 1) (min (backoff * 2) 60) with
        | raised s3 a3 ds3 => rw [hrec] at h; cases h
        | exhausted ds3 => rw [hrec] at h; cases h
        | ok a3 ds3 =>
          rw [hrec] at h
          obtain ⟨hcr, _⟩ : retriableStatus s2 = true ∧ 0 < r := by simpa using hc
          cases h
          obtain ⟨hra, hrall⟩ := ih (attempt + 1) (min (backoff * 2) 60) _ _ hrec
          refine ⟨hra, ?_⟩
          intro i hi1 hi2
          rcases Nat.eq_or_lt_of_le hi1 with rfl | hlt
          · exact ⟨s2, hresp, hcr⟩
          · exact hrall i hlt hi2
      · rw [show createLoop resp (r + 1) attempt backoff = .raised s2 attempt [] by
          simp [createLoop, hresp, hc]] at h
        cases h

/-- Claim C3: for pod creation with retry budget `maxRetries`, the
backoff delays start at 5, follow `next = min (prev * 2) 60` (doubling,
capped by the 60-second ceiling), are non-decreasing and never exceed
60; at most `maxRetries` creation attempts are issued; a retry happens
only when the attempt failed with status 409, 429, 500 or 503 (every
attempt before the final one — successful or raising — was such a
retriable failure; any other error is raised at its own attempt); and on
the creation path the pod is registered in the managed set only when the
readiness wait succeeds. -/
theorem pod_create_retry_contract (resp : Nat → ApiResponse) (maxRetries : Nat)
    (waitOk : Bool) :
    (∀ d ds2, (podCreateWithRetry resp maxRetries).delays = d :: ds2 → d = 5) ∧
    List.Chain' (fun x y => y = min (x * 2) 60) (podCreateWithRetry resp maxRetries).delays ∧
    List.Chain' (· ≤ ·) (podCreateWithRetry resp maxRetries).delays ∧
    (∀ d ∈ (podCreateWithRetry resp maxRetries).delays, d ≤ 60) ∧
    (podCreateWithRetry resp maxRetries).lastAttempt ≤ maxRetries ∧
    (∀ s a ds, podCreateWithRetry resp maxRetries = .raised s a ds →
      resp a = .apiError s ∧
      ∀ i, 1 ≤ i → i < a →
        ∃ s2, resp i = .apiError s2 ∧ retriableStatus s2 = true) ∧
    (∀ a ds, podCreateWithRetry resp maxRetries = .ok a ds →
      resp a = .success ∧
      ∀ i, 1 ≤ i → i < a →
        ∃ s2, resp i = .apiError s2 ∧ retriableStatus s2 = true) ∧
    ((startPodModel ReadResult.notFound resp maxRetries waitOk).2 = true →
      waitOk = true) := by
  have hgood : goodDelays 5 (podCreateWithRetry resp maxRetries).delays :=
    createLoop_delays_good resp maxRetries 1 5
  refine ⟨?_, goodDelays_chain hgood, goodDelays_nondecreasing (by omega) hgood,
    goodDelays_le (by omega) hgood, ?_, ?_, ?_, ?_⟩
  · intro d ds2 hds
    rw [hds] at hgood
    exact hgood.1
  · have := createLoop_lastAttempt_le resp maxRetries 1 5
    simpa [podCreateWithRetry] using this
  · intro s a ds h
    exact createLoop_raised_inv resp maxRetries 1 5 s a ds h
  · intro a ds h
    exact createLoop_ok_inv resp maxRetries 1 5 a ds h
  · intro hreg
    simp only [startPodModel] at hreg
    split at hreg
    · split at hreg
      · assumption
      · simp at hreg
    · simp at hreg
    · simp at hreg

/-- Witness for C3: HTTP 409 on the first two attempts, success on the
third; delays slept are [5, 10], three attempts were issued, and the
target was registered after a successful readiness wait. -/
theorem pod_create_retry_contract_witness :
    respConflictTwice 3 = ApiResponse.success ∧
    podCreateWithRetry respConflictTwice 3 = CreateResult.ok 3 [5, 10] ∧
    (startPodModel ReadResult.notFound respConflictTwice 3 true).2 = true :=
  ⟨((pod_create_retry_contract respConflictTwice 3 true).2.2.2.2.2.2.1 3 [5, 10]
      (by decide)).1,
   by decide, by decide⟩

theorem createLoop_not_exhausted (resp : Nat → ApiResponse) :
    ∀ (rem attempt backoff : Nat), 1 ≤ rem →
      (createLoop resp rem attempt backoff).isExhausted = false := by
  intro rem
  induction rem with
  | zero => intro attempt backoff h; omega
  | succ r ih =>
    intro attempt backoff _
    cases hresp : resp attempt with
    | success => simp [createLoop, hresp, CreateResult.isExhausted]
    | apiError s =>
      by_cases hc : (retriableStatus s && decide (0 < r)) = true
      · rw [show createLoop resp (r + 1) attempt backoff =
            consDelay backoff (createLoop resp r (attempt + 1) (min (backoff * 2) 60)) by
          simp [createLoop, hresp, hc]]
        rw [isExhausted_consDelay]
        obtain ⟨_, hr⟩ : retriableStatus s = true ∧ 0 < r := by simpa using hc
        exact ih (attempt + 1) (min (backoff * 2) 60) hr
      · simp [createLoop, hresp, hc, CreateResult.isExhausted]

/-- Claim C9: for `maxRetries ≥ 1` the `for`-`else` escalation branch of
the creation loop is unreachable — the loop always ends by breaking on a
successful creation or by re-raising an exception, never by exhausting
the range (retrying requires `attempt < maxRetries`, so the final
attempt either breaks or raises). -/
theorem pod_create_for_else_unreachable (resp : Nat → ApiResponse) (maxRetries : Nat)
    (h : 1 ≤ maxRetries) :
    (podCreateWithRetry resp maxRetries).isExhausted = false :=
  createLoop_not_exhausted resp maxRetries 1 5 h

/-- Witness for C9 at `maxRetries = 1` with an immediately successful
creation. -/
theorem pod_create_for_else_unreachable_witness :
    (podCreateWithRetry respAllSuccess 1).isExhausted = false :=
  pod_create_for_else_unreachable respAllSuccess 1 (by decide)

/-! ## C5: idempotent start -/

theorem listByName_startFirst {engine : List DockerContainer} {name : String}
    {c : DockerContainer} {rest : List DockerContainer}
    (h : listByName engine name = c :: rest) :
    listByName (startFirst engine name) name = ⟨c.name, "running"⟩ :: rest := by
  induction engine generalizing c rest with
  | nil => simp [listByName] at h
  | cons a tl ih =>
    by_cases ha : (a.name == name) = true
    · rw [listByName, List.filter_cons, if_pos ha] at h
      injection h with h1 h2
      subst h1
      rw [startFirst, if_pos ha, listByName, List.filter_cons]
      simp only [ha, if_pos]
      rw [h2]
    · rw [listByName, List.filter_cons, if_neg ha] at h
      rw [startFirst, if_neg ha, listByName, List.filter_cons, if_neg ha]
      exact ih h

/-- After a first `start_container` call, the engine holds a container
with the requested name whose first match is running. -/
theorem dockerStart_leaves_running (engine : List DockerContainer)
    (managed : List String) (name : String) :
    ∃ c rest,
      listByName (dockerStartContainer engine managed name).engine name = c :: rest ∧
      c.status = "running" := by
  cases hl : listByName engine name with
  | nil =>
    refine ⟨⟨name, "running"⟩, [], ?_, rfl⟩
    have hfe : List.filter (fun c => c.name == name) engine = [] := hl
    simp only [dockerStartContainer, hl, listByName, List.filter_append, hfe,
      List.filter_cons]
    simp
  | cons c rest =>
    by_cases hst : c.status = "running"
    · refine ⟨c, rest, ?_, hst⟩
      have heng : (dockerStartContainer engine managed name).engine = engine := by
        simp [dockerStartContainer, hl, hst]
      rw [heng, hl]
    · refine ⟨⟨c.name, "running"⟩, rest, ?_, rfl⟩
      have heng : (dockerStartContainer engine managed name).engine =
          startFirst engine name := by
        simp [dockerStartContainer, hl, hst]
      rw [heng]
      exact listByName_startFirst hl

/-- Claim C5: starting twice with the same name and image performs at
most one creation call on either backend; the second call finds the
existing target by name and reuses it without creating (and on the local
backend the lookup branch starts a found container exactly when its
status is not "running"). -/
theorem start_idempotent_one_creation (engine : List DockerContainer)
    (managed : List String) (name : String)
    (cluster managedK : List String) (waitOk waitOk2 : Bool) :
    (dockerStartContainer engine managed name).creations +
      (dockerStartContainer (dockerStartContainer engine managed name).engine
        (dockerStartContainer engine managed name).managed name).creations ≤ 1 ∧
    (dockerStartContainer (dockerStartContainer engine managed name).engine
        (dockerStartContainer engine managed name).managed name).creations = 0 ∧
    listByName (dockerStartContainer engine managed name).engine name ≠ [] ∧
    (dockerStartContainer (dockerStartContainer engine managed name).engine
        (dockerStartContainer engine managed name).managed name).engine =
      (dockerStartContainer engine managed name).engine ∧
    (∀ c rest, listByName engine name = c :: rest → c.status ≠ "running" →
      (dockerStartContainer engine managed name).engine = startFirst engine name) ∧
    (k8sStartSeq cluster managedK name waitOk).creations +
      (k8sStartSeq (k8sStartSeq cluster managedK name waitOk).cluster
        (k8sStartSeq cluster managedK name waitOk).managed name waitOk2).creations ≤ 1 ∧
    (k8sStartSeq (k8sStartSeq cluster managedK name waitOk).cluster
        (k8sStartSeq cluster managedK name waitOk).managed name waitOk2).creations = 0 ∧
    name ∈ (k8sStartSeq cluster managedK name waitOk).cluster := by
  obtain ⟨c1, rest1, hl1, hst1⟩ := dockerStart_leaves_running engine managed name
  have hsecondGen : ∀ (eng : List DockerContainer) (mng : List String),
      listByName eng name = c1 :: rest1 → c1.status = "running" →
      dockerStartContainer eng mng name = ⟨eng, addManaged mng name, 0⟩ := by
    intro eng mng hl hst
    simp [dockerStartContainer, hl, hst]
  have hsecond := hsecondGen (dockerStartContainer engine managed name).engine
    (dockerStartContainer engine managed name).managed hl1 hst1
  have hfirst : (dockerStartContainer engine managed name).creations ≤ 1 := by
    cases hl : listByName engine name with
    | nil => simp [dockerStartContainer, hl]
    | cons c rest => simp [dockerStartContainer, hl]
  have hk1 : name ∈ (k8sStartSeq cluster managedK name waitOk).cluster := by
    by_cases hmem : name ∈ cluster
    · simp [k8sStartSeq, hmem]
    · cases waitOk <;> simp [k8sStartSeq, hmem]
  have hk2Gen : ∀ (cl mg : List String), name ∈ cl →
      (k8sStartSeq cl mg name waitOk2).creations = 0 := by
    intro cl mg hmem
    simp [k8sStartSeq, hmem]
  have hk2 := hk2Gen (k8sStartSeq cluster managedK name waitOk).cluster
    (k8sStartSeq cluster managedK name waitOk).managed hk1
  have hkfirst : (k8sStartSeq cluster managedK name waitOk).creations ≤ 1 := by
    by_cases hmem : name ∈ cluster
    · simp [k8sStartSeq, hmem]
    · cases waitOk <;> simp [k8sStartSeq, hmem]
  refine ⟨?_, ?_, ?_, ?_, ?_, ?_, hk2, hk1⟩
  · rw [hsecond]
    simpa using hfirst
  · rw [hsecond]
  · rw [hl1]
    simp
  · rw [hsecond]
  · intro c rest hl hns
    simp [dockerStartContainer, hl, hns]
  · omega

/-- Witness for C5: a container found by name in status "exited" is
started (not re-created) by the lookup branch. -/
theorem start_idempotent_one_creation_witness :
    (dockerStartContainer [⟨"box", "exited"⟩] [] "box").engine =
      startFirst [⟨"box", "exited"⟩] "box" :=
  (start_idempotent_one_creation [⟨"box", "exited"⟩] [] "box" [] [] true true).2.2.2.2.1
    ⟨"box", "exited"⟩ [] (by decide) (by decide)

/-! ## C7: merged environment -/

theorem lookupKV_not_mem_keys {l : List (String × String)} {k : String}
    (h : k ∉ l.map Prod.fst) : lookupKV l k = none := by
  induction l with
  | nil => rfl
  | cons p tl ih =>
    obtain ⟨k1, v1⟩ := p
    simp only [List.map_cons, List.mem_cons, not_or] at h
    rw [lookupKV, if_neg h.1]
    exact ih h.2

theorem lookupKV_append (d d2 : List (String × String)) (q : String) :
    lookupKV (d ++ d2) q =
      match lookupKV d q with
      | some x => some x
      | none => lookupKV d2 q := by
  induction d with
  | nil => rfl
  | cons p tl ih =>
    obtain ⟨k1, v1⟩ := p
    by_cases hq : q = k1
    · simp [lookupKV, hq]
    · simp only [List.cons_append, lookupKV, if_neg hq]
      exact ih

theorem lookupKV_map_overwrite (k v q : String) (d : List (String × String)) :
    lookupKV (d.map (fun p => if p.1 = k then (k, v) else p)) q =
      if q = k then (lookupKV d k).map (fun _ => v) else lookupKV d q := by
  induction d with
  | nil => by_cases hq : q = k <;> simp [lookupKV, hq]
  | cons p tl ih =>
    obtain ⟨k1, v1⟩ := p
    simp only [List.map_cons]
    by_cases hk1 : k1 = k
    · subst hk1
      rw [show (if (k1, v1).1 = k1 then (k1, v) else (k1, v1)) = (k1, v) from by simp]
      rw [lookupKV]
      rw [show lookupKV ((k1, v1) :: tl) k1 = some v1 from by rw [lookupKV, if_pos rfl]]
      by_cases hq : q = k1
      · rw [if_pos hq, if_pos hq]
        rfl
      · rw [if_neg hq, if_neg hq, ih, if_neg hq, lookupKV, if_neg hq]
    · rw [show (if (k1, v1).1 = k then (k, v) else (k1, v1)) = (k1, v1) from by
        simp [hk1]]
      rw [lookupKV]
      by_cases hq : q = k1
      · have hqk : ¬q = k := by rw [hq]; exact hk1
        rw [if_pos hq, if_neg hqk, lookupKV, if_pos hq]
      · rw [if_neg hq, ih]
        by_cases hqk : q = k
        · rw [if_pos hqk, if_pos hqk]
          have hkk1 : ¬k = k1 := fun hc => hk1 hc.symm
          rw [lookupKV, if_neg hkk1]
        · rw [if_neg hqk, if_neg hqk, lookupKV, if_neg hq]

theorem lookupKV_dictSet (d : List (String × String)) (k v q : String) :
    lookupKV (dictSet d k v) q = if q = k then some v else lookupKV d q := by
  by_cases hpres : (lookupKV d k).isSome
  · rw [dictSet, if_pos hpres, lookupKV_map_overwrite]
    by_cases hq : q = k
    · obtain ⟨x, hx⟩ := Option.isSome_iff_exists.mp hpres
      simp [hq, hx]
    · simp [hq]
  · rw [dictSet, if_neg hpres, lookupKV_append]
    have hnone : lookupKV d k = none := by
      cases hdk : lookupKV d k
      · rfl
      · rw [hdk] at hpres; simp at hpres
    by_cases hq : q = k
    · subst hq
      rw [hnone]
      simp [lookupKV]
    · cases hdq : lookupKV d q
      · simp [lookupKV, hq]
      · simp [hq]

theorem lookupKV_dictUpdate (u : List (String × String)) :
    ∀ (d : List (String × String)) (q : String), (u.map Prod.fst).Nodup →
      lookupKV (dictUpdate d u) q =
        match lookupKV u q with
        | some v => some v
        | none => lookupKV d q := by
  induction u with
  | nil => intro d q _; rfl
  | cons p tl ih =>
    obtain ⟨k1, v1⟩ := p
    intro d q hnd
    simp only [List.map_cons, List.nodup_cons] at hnd
    obtain ⟨hk1, htl⟩ := hnd
    have hstep : dictUpdate d ((k1, v1) :: tl) = dictUpdate (dictSet d k1 v1) tl := rfl
    rw [hstep, ih (dictSet d k1 v1) q htl]
    by_cases hq : q = k1
    · subst hq
      rw [lookupKV_not_mem_keys hk1]
      simp [lookupKV, lookupKV_dictSet]
    · rw [lookupKV, if_neg hq]
      cases lookupKV tl q
      · simp [lookupKV_dictSet, hq]
      · simp

/-- Claim C7: the environment handed to the engine at creation — for the
container create call and the pod specification alike — is the baseline
PATH default merged with the user mapping, user keys winning: every
user-supplied key maps to the user's value (including PATH when the user
supplies it), and PATH maps to the baseline default otherwise. -/
theorem merged_environment_contract (user : List (String × String)) (k : String)
    (hnd : (user.map Prod.fst).Nodup) :
    lookupKV (mergedEnv user) k =
      (match lookupKV user k with
       | some v => some v
       | none => if k = "PATH" then some DEFAULT_DOCKER_PATH else none) ∧
    podSpecEnv user = mergedEnv user := by
  refine ⟨?_, rfl⟩
  rw [mergedEnv, lookupKV_dictUpdate user _ k hnd]
  cases lookupKV user k
  · simp [lookupKV]
  · simp

/-- Witness for C7: a user mapping that overrides PATH, and one that
does not. -/
theorem merged_environment_contract_witness :
    lookupKV (mergedEnv [("FOO", "bar"), ("PATH", "/custom")]) "PATH" = some "/custom" ∧
    lookupKV (mergedEnv [("FOO", "bar")]) "PATH" = some DEFAULT_DOCKER_PATH :=
  ⟨(merged_environment_contract [("FOO", "bar"), ("PATH", "/custom")] "PATH"
      (by decide)).1.trans (by rfl),
   (merged_environment_contract [("FOO", "bar")] "PATH" (by decide)).1.trans (by rfl)⟩

/-! ## C6: identity generator -/

theorem wordHex_length (w : Nat) : (wordHex w).length = 8 := rfl

theorem sha256Hex_length (s : String) : (sha256Hex s).length = 64 := by
  simp [sha256Hex, hash8Hex, List.length_append, wordHex_length]

theorem hashSuffix_length (u : String) : (hashSuffix u).length = 10 := by
  rw [hashSuffix, List.length_take, sha256Hex_length]
  rfl

/-- Claim C6 counterexample: the generator is a deterministic function
of the image, the process id, and the wall-clock reading; nothing in the
source forces two calls in immediate succession to observe distinct
clock readings (or distinct truncated hashes), and whenever the readings
coincide the two calls produce the *same* name — so "two calls in
immediate succession produce different names" does not hold
unconditionally. -/
theorem get_container_name_same_inputs_same_name :
    getContainerName "ubuntu:22.04" "4242" "2026-10-12 10:00:00.000001" =
      getContainerName "ubuntu:22.04" "4242" "2026-10-12 10:00:00.000001" := rfl

/-- Claim C6 (amended): every generated name is the sanitized image
('/' and ':' replaced by '-') followed by '-' and a 10-character suffix
of the SHA-256 hex digest of timestamp ++ pid; and two calls with the
same image and pid produce different names exactly when the truncated
hash suffixes of their clock readings differ (so distinctness of
immediate-succession calls holds precisely when the hash inputs yield
different suffixes, which the code does not itself guarantee). -/
theorem get_container_name_format (imageName processId t1 t2 : String) :
    getContainerName imageName processId t1 =
      sanitizeImage imageName ++ "-" ++ String.mk (hashSuffix (t1 ++ processId)) ∧
    (hashSuffix (t1 ++ processId)).length = 10 ∧
    (getContainerName imageName processId t1 = getContainerName imageName processId t2 ↔
      hashSuffix (t1 ++ processId) = hashSuffix (t2 ++ processId)) := by
  refine ⟨rfl, hashSuffix_length _, ?_⟩
  constructor
  · intro h
    have hd := congrArg String.data h
    rw [getContainerName, getContainerName, String.data_append, String.data_append] at hd
    exact List.append_cancel_left hd
  · intro h
    rw [getContainerName, getContainerName, h]

end Kodo
